import Mathlib

/-!
Shallow embedding of the client/phone data-access layer in
src/clients_db.py, together with theorems checking the specification
claims against it.

The relational store is modelled as an explicit state (`DB`): the row
lists of the two tables plus the next values of their SERIAL id
sequences.  Each Python function becomes a Lean function on `DB`;
functions whose statements can be rejected by a store constraint return
`Except DBErr DB`.  An `Except.error` result models a psycopg2 exception
raised before any `conn.commit()` was reached, so the store is left in
its pre-call state (this holds for every error path reachable in the
source: the failing statement is always the first effectful one of the
call, or occurs before the first commit of the call).

Machine-level aspects that no claim touches (VARCHAR length limits,
connection handling) are not modelled; strings are unbounded text.
-/

/-- A row of the `client` table:
id SERIAL PRIMARY KEY, first_name, last_name, email (UNIQUE NOT NULL). -/
structure ClientRow where
  id : Nat
  first_name : String
  last_name : String
  email : String
deriving Repr, DecidableEq

/-- A row of the `phone` table:
id SERIAL PRIMARY KEY, client_id REFERENCES client(id) ON DELETE CASCADE,
number VARCHAR NOT NULL.  Note the schema places no UNIQUE constraint on
`number` or on the pair (client_id, number). -/
structure PhoneRow where
  id : Nat
  client_id : Nat
  number : String
deriving Repr, DecidableEq

/-- The store state: contents of both tables and the two id sequences. -/
structure DB where
  clients : List ClientRow
  phones : List PhoneRow
  nextClientId : Nat
  nextPhoneId : Nat
deriving Repr, DecidableEq

/-- Errors.  The first two model store-level constraint violations
(psycopg2.errors.UniqueViolation / ForeignKeyViolation raised by
PostgreSQL on INSERT or UPDATE).  The remaining constructors are the
typed application-level errors named by the specification; the source
code never raises them (it defines no such exception classes), and no
operation below ever returns them. -/
inductive DBErr where
  | uniqueViolation
  | fkViolation
  | duplicateEmailError
  | clientNotFoundError
  | invalidEmailFormatError
deriving Repr, DecidableEq

instance {ε α : Type} [DecidableEq ε] [DecidableEq α] : DecidableEq (Except ε α) := fun a b =>
  match a, b with
  | Except.ok x, Except.ok y =>
    if h : x = y then isTrue (by rw [h])
    else isFalse (by intro hc; cases hc; exact h rfl)
  | Except.error x, Except.error y =>
    if h : x = y then isTrue (by rw [h])
    else isFalse (by intro hc; cases hc; exact h rfl)
  | Except.ok _, Except.error _ => isFalse (by intro hc; cases hc)
  | Except.error _, Except.ok _ => isFalse (by intro hc; cases hc)

/-- The empty freshly-created schema: both tables empty, both SERIAL
sequences starting at 1. -/
def initDB : DB := { clients := [], phones := [], nextClientId := 1, nextPhoneId := 1 }

/-- Embeds the first statement of create_db:
DROP TABLE IF EXISTS phone; DROP TABLE IF EXISTS client;
Dropping a table discards its rows and its owned SERIAL sequence. -/
def drop_tables (_db : DB) : DB := initDB

/-- Embeds the two CREATE TABLE IF NOT EXISTS statements of create_db.
In this model the tables always exist as (possibly empty) row lists, and
after `drop_tables` they are empty, so CREATE TABLE IF NOT EXISTS does
not change the state. -/
def create_tables (db : DB) : DB := db

/-- Embeds create_db(conn): it always executes DROP TABLE IF EXISTS on
phone and client first (the source comment says this is for a clean
slate when testing), then creates both tables. -/
def create_db (db : DB) : DB := create_tables (drop_tables db)

/-- SELECT of a client row by id (models the FOREIGN KEY lookup the
store performs when an INSERT into phone is checked). -/
def findClientById (db : DB) (cid : Nat) : Option ClientRow :=
  db.clients.find? (fun c => c.id == cid)

/-- Whether some client row already carries this email (models the
UNIQUE constraint check the store performs on INSERT/UPDATE of client.email). -/
def emailExists (db : DB) (em : String) : Bool :=
  db.clients.any (fun c => c.email == em)

/-- Embeds add_phone(conn, client_id, phone): a bare
INSERT INTO phone (client_id, number) VALUES (...).
The store rejects the insert with a foreign-key violation when no client
row with this id exists; otherwise the row is inserted with the next
serial id and committed.  No other validation is performed. -/
def add_phone (db : DB) (cid : Nat) (num : String) : Except DBErr DB :=
  if (findClientById db cid).isSome then
    Except.ok { db with
      phones := db.phones ++ [{ id := db.nextPhoneId, client_id := cid, number := num }],
      nextPhoneId := db.nextPhoneId + 1 }
  else Except.error DBErr.fkViolation

/-- Embeds add_client(conn, first_name, last_name, email, phones=None):
a bare INSERT INTO client ... RETURNING id, with no existence pre-check
and no email-format check; a duplicate email is rejected by the store's
UNIQUE constraint (raising a generic constraint violation).  On success
the generated id is returned and each phone of the (possibly absent)
list is added via add_phone; inside this call the freshly inserted
client is visible to the foreign-key check, so those inserts succeed. -/
def add_client (db : DB) (fn ln em : String) (phones : Option (List String)) :
    Except DBErr (Nat × DB) :=
  if emailExists db em then Except.error DBErr.uniqueViolation
  else
    let cid := db.nextClientId
    let db1 : DB := { db with
      clients := db.clients ++ [{ id := cid, first_name := fn, last_name := ln, email := em }],
      nextClientId := db.nextClientId + 1 }
    match (phones.getD []).foldlM (fun d p => add_phone d cid p) db1 with
    | Except.ok db2 => Except.ok (cid, db2)
    | Except.error e => Except.error e

/-- UPDATE client SET ... WHERE id = cid: rewrite the single row whose
id matches (ids are a primary key; on arbitrary states every matching
row is rewritten, as SQL would). -/
def updateField (db : DB) (cid : Nat) (f : ClientRow → ClientRow) : DB :=
  { db with clients := db.clients.map (fun c => if c.id == cid then f c else c) }

/-- UPDATE client SET email = e WHERE id = cid, including the store's
UNIQUE check: the update is rejected when a different row already
carries this email. -/
def setEmail (db : DB) (cid : Nat) (e : String) : Except DBErr DB :=
  if db.clients.any (fun c => c.id != cid && c.email == e) then
    Except.error DBErr.uniqueViolation
  else Except.ok (updateField db cid (fun c => { c with email := e }))

/-- Embeds change_client(conn, client_id, first_name=None, last_name=None,
email=None, phones=None): each field is updated only when its argument
is not None; when phones is not None all of the client's phone rows are
deleted and the given list is re-added via add_phone.  A None phones
argument leaves the phone table untouched. -/
def change_client (db : DB) (cid : Nat) (fn ln em : Option String)
    (phones : Option (List String)) : Except DBErr DB :=
  let db1 := match fn with
    | some v => updateField db cid (fun c => { c with first_name := v })
    | none => db
  let db2 := match ln with
    | some v => updateField db1 cid (fun c => { c with last_name := v })
    | none => db1
  match (match em with
    | some v => setEmail db2 cid v
    | none => Except.ok db2) with
  | Except.error e => Except.error e
  | Except.ok db3 =>
    match phones with
    | none => Except.ok db3
    | some ps =>
      let db4 : DB := { db3 with phones := db3.phones.filter (fun p => p.client_id != cid) }
      ps.foldlM (fun d p => add_phone d cid p) db4

/-- Embeds delete_phone(conn, client_id, phone):
DELETE FROM phone WHERE client_id = %s AND number = %s.
Every row matching both columns is removed; nothing signals when no row
matched. -/
def delete_phone (db : DB) (cid : Nat) (num : String) : DB :=
  { db with phones := db.phones.filter (fun p => !(p.client_id == cid && p.number == num)) }

/-- Embeds delete_client(conn, client_id):
DELETE FROM client WHERE id = %s.  The ON DELETE CASCADE clause of the
phone table removes every phone row referencing the deleted client in
the same statement. -/
def delete_client (db : DB) (cid : Nat) : DB :=
  { db with
    clients := db.clients.filter (fun c => c.id != cid),
    phones := db.phones.filter (fun p => p.client_id != cid) }

/-- SQL LIKE pattern matching over character lists (the pattern is the
first argument): percent matches any sequence, underscore any single
character, any other character matches itself.  The extra fuel argument
makes the recursion structural; every recursive call decreases
p.length + s.length, so the fuel used below never runs out (see
`likeMatchF_fuel_irrelevant`). -/
def likeMatchF : Nat → List Char → List Char → Bool
  | 0, _, _ => false
  | _ + 1, [], s => s.isEmpty
  | fuel + 1, '%' :: ps, [] => likeMatchF fuel ps []
  | fuel + 1, '%' :: ps, c :: cs =>
      likeMatchF fuel ps (c :: cs) || likeMatchF fuel ('%' :: ps) cs
  | _ + 1, '_' :: _, [] => false
  | fuel + 1, '_' :: ps, _ :: cs => likeMatchF fuel ps cs
  | _ + 1, _ :: _, [] => false
  | fuel + 1, pc :: ps, c :: cs => (pc == c) && likeMatchF fuel ps cs

/-- ASCII lowercasing of one character (the case folding ILIKE performs
on ASCII text). -/
def lowerChar (c : Char) : Char :=
  if 65 ≤ c.toNat && c.toNat ≤ 90 then Char.ofNat (c.toNat + 32) else c

/-- s ILIKE pat: case-insensitive LIKE, modelled by lowercasing both
sides, as PostgreSQL ILIKE behaves on ASCII. -/
def ilike (s pat : String) : Bool :=
  likeMatchF (pat.length + s.length + 1)
    (pat.toList.map lowerChar) (s.toList.map lowerChar)

/-- The record find_client returns for one client:
(id, first_name, last_name, email, [phones]). -/
structure FoundClient where
  id : Nat
  first_name : String
  last_name : String
  email : String
  phones : List String
deriving Repr, DecidableEq

/-- One optional text criterion of find_client.  The Python code appends
a WHERE condition only when the argument is truthy, so None and the
empty string both impose no filter; otherwise the condition is an ILIKE
against the column. -/
def condOpt (crit : Option String) (field : String) : Bool :=
  match crit with
  | none => true
  | some s => if s.isEmpty then true else ilike field s

/-- The conjunction of the three client-column conditions of find_client
(conditions are combined with AND in the WHERE clause). -/
def clientCond (fn ln em : Option String) (c : ClientRow) : Bool :=
  condOpt fn c.first_name && condOpt ln c.last_name && condOpt em c.email

/-- The rows produced by find_client's SELECT before ORDER BY: without a
truthy phone criterion, the matching client rows; with one, the
client-phone JOIN restricted by the conditions, which yields one copy of
the client row per phone row of that client whose number matches. -/
def joinRows (db : DB) (fn ln em phone : Option String) : List ClientRow :=
  match phone with
  | none => db.clients.filter (clientCond fn ln em)
  | some pat =>
    if pat.isEmpty then db.clients.filter (clientCond fn ln em)
    else (db.clients.filter (clientCond fn ln em)).flatMap (fun c =>
      (db.phones.filter (fun p => p.client_id == c.id && ilike p.number pat)).map
        (fun _ => c))

/-- SELECT number FROM phone WHERE client_id = %s, as run by find_client
for each fetched row: all numbers of the client, not only matching ones. -/
def clientPhones (db : DB) (cid : Nat) : List String :=
  (db.phones.filter (fun p => p.client_id == cid)).map (fun p => p.number)

/-- The ORDER BY c.id comparison. -/
def idLe (a b : ClientRow) : Prop := a.id ≤ b.id

instance : DecidableRel idLe := fun a b => Nat.decLe a.id b.id

instance : IsTotal ClientRow idLe := ⟨fun a b => Nat.le_total a.id b.id⟩

instance : IsTrans ClientRow idLe := ⟨fun _ _ _ h1 h2 => Nat.le_trans h1 h2⟩

/-- Embeds find_client(conn, first_name=None, last_name=None, email=None,
phone=None): build the filtered (and, when a phone criterion is given,
joined) row list, ORDER BY client id (determinized here as a stable sort
of the generated row list), then for each fetched row query the full
phone list of that client and attach it. -/
def find_client (db : DB) (fn ln em phone : Option String) : List FoundClient :=
  (List.insertionSort idLe (joinRows db fn ln em phone)).map (fun c =>
    { id := c.id, first_name := c.first_name, last_name := c.last_name,
      email := c.email, phones := clientPhones db c.id })

/-- The store states reachable from schema initialization through the
operations of the module (only committed states are observable). -/
inductive Reachable : DB → Prop where
  | init : Reachable initDB
  | create (db : DB) : Reachable db → Reachable (create_db db)
  | addClient (db : DB) (fn ln em : String) (ph : Option (List String))
      (cid : Nat) (db2 : DB) : Reachable db →
      add_client db fn ln em ph = Except.ok (cid, db2) → Reachable db2
  | addPhone (db : DB) (cid : Nat) (num : String) (db2 : DB) : Reachable db →
      add_phone db cid num = Except.ok db2 → Reachable db2
  | changeClient (db : DB) (cid : Nat) (fn ln em : Option String)
      (ph : Option (List String)) (db2 : DB) : Reachable db →
      change_client db cid fn ln em ph = Except.ok db2 → Reachable db2
  | deletePhone (db : DB) (cid : Nat) (num : String) : Reachable db →
      Reachable (delete_phone db cid num)
  | deleteClient (db : DB) (cid : Nat) : Reachable db →
      Reachable (delete_client db cid)

/-- Referential integrity: every phone row references an existing client
row (the property the FOREIGN KEY constraint maintains). -/
def phonesFK (db : DB) : Prop :=
  ∀ p ∈ db.phones, ∃ c ∈ db.clients, c.id = p.client_id

/-! ## Frame and error lemmas used across claims -/

lemma likeMatchF_fuel_irrelevant :
    ∀ (f1 : Nat) (p s : List Char) (f2 : Nat), p.length + s.length < f1 →
      p.length + s.length < f2 → likeMatchF f1 p s = likeMatchF f2 p s := by
  intro f1
  induction f1 with
  | zero =>
    intro p s f2 h1 _
    omega
  | succ n ih =>
    intro p s f2 h1 h2
    cases f2 with
    | zero => omega
    | succ m =>
      rcases p with _ | ⟨pc, ps⟩
      · rfl
      · rcases s with _ | ⟨c, cs⟩
        · by_cases hc1 : pc = '%'
          · subst hc1
            simp only [likeMatchF]
            exact ih ps [] m (by simp at h1 ⊢; omega) (by simp at h2 ⊢; omega)
          · by_cases hc2 : pc = '_'
            · subst hc2
              simp [likeMatchF]
            · simp [likeMatchF, hc1, hc2]
        · by_cases hc1 : pc = '%'
          · subst hc1
            simp only [likeMatchF]
            rw [ih ps (c :: cs) m (by simp at h1 ⊢; omega) (by simp at h2 ⊢; omega),
              ih ('%' :: ps) cs m (by simp at h1 ⊢; omega) (by simp at h2 ⊢; omega)]
          · by_cases hc2 : pc = '_'
            · subst hc2
              simp only [likeMatchF]
              exact ih ps cs m (by simp at h1 ⊢; omega) (by simp at h2 ⊢; omega)
            · simp only [likeMatchF, hc1, hc2]
              rw [ih ps cs m (by simp at h1 ⊢; omega) (by simp at h2 ⊢; omega)]

lemma add_client_none_ok (db : DB) (fn ln em : String)
    (h : emailExists db em = false) :
    add_client db fn ln em none = Except.ok (db.nextClientId,
      { db with
        clients := db.clients ++
          [{ id := db.nextClientId, first_name := fn, last_name := ln, email := em }],
        nextClientId := db.nextClientId + 1 }) := by
  simp [add_client, h]
  rfl

/-! ## C1: schema initialization -/

/-- C1: counterexample.  The claim states that create_db leaves all
pre-existing tables and their rows unchanged.  On a store holding one
client row and one phone row, create_db erases both rows. -/
theorem create_db_preserves_rows_cex :
    (create_db ⟨[⟨1, "a", "b", "a@b.com"⟩], [⟨1, 1, "+7"⟩], 2, 2⟩).clients = [] ∧
    (⟨[⟨1, "a", "b", "a@b.com"⟩], [⟨1, 1, "+7"⟩], 2, 2⟩ : DB).clients ≠ [] := by
  constructor
  · rfl
  · intro h
    cases h

/-- C1 (amended): create_db always executes DROP TABLE IF EXISTS on both
tables before recreating them, inside the same operation: on every store
state it returns the fresh empty schema, erasing all pre-existing client
and phone rows; no distinct reset operation exists in the module. -/
theorem create_db_clears_all_rows (db : DB) :
    create_db db = initDB ∧ (create_db db).clients = [] ∧ (create_db db).phones = [] :=
  ⟨rfl, rfl, rfl⟩

/-! ## C2: duplicate email on add_client -/

/-- C2: counterexample.  The claim states that on a duplicate email,
add_client returns a typed DuplicateEmailError after an existence
pre-check.  On a store already holding the email, the bare INSERT is
rejected by the store's UNIQUE constraint instead: the result is the
generic store-level constraint violation, which is not the typed error. -/
theorem add_client_duplicate_email_cex :
    add_client ⟨[⟨1, "a", "b", "a@b.com"⟩], [], 2, 1⟩ "x" "y" "a@b.com" none =
      Except.error DBErr.uniqueViolation ∧
    DBErr.uniqueViolation ≠ DBErr.duplicateEmailError := by
  constructor
  · decide
  · decide

/-- C2 (amended): add_client performs no existence pre-check; when some
client row already carries the given email, its INSERT is rejected by
the store's UNIQUE constraint and the call fails with the generic
store-level constraint violation (not a typed DuplicateEmailError).  An
error result models an exception raised before any commit, so the store
keeps its pre-call state: no row is created and the email still belongs
to exactly as many rows as before (one, under the unique-email
invariant). -/
theorem add_client_duplicate_email (db : DB) (fn ln em : String)
    (ph : Option (List String)) (h : emailExists db em = true) :
    add_client db fn ln em ph = Except.error DBErr.uniqueViolation := by
  simp [add_client, h]

/-- C2: witness for add_client_duplicate_email. -/
theorem add_client_duplicate_email_witness :
    add_client ⟨[⟨1, "a", "b", "a@b.com"⟩], [], 2, 1⟩ "x" "y" "a@b.com" none =
      Except.error DBErr.uniqueViolation :=
  add_client_duplicate_email ⟨[⟨1, "a", "b", "a@b.com"⟩], [], 2, 1⟩ "x" "y" "a@b.com"
    none (by decide)

/-! ## C3: add_phone on a missing client -/

/-- C3: counterexample.  The claim states that add_phone on a
nonexistent client id returns a typed ClientNotFoundError.  On the empty
store, add_phone 1 fails with the store's foreign-key violation, which
is not the typed error. -/
theorem add_phone_missing_client_cex :
    add_phone initDB 1 "+7" = Except.error DBErr.fkViolation ∧
    DBErr.fkViolation ≠ DBErr.clientNotFoundError := by
  constructor
  · decide
  · decide

/-- C3 (amended): add_phone performs no existence pre-check; when the
given client id matches no client row, its INSERT is rejected by the
store's FOREIGN KEY constraint and the call fails with the generic
store-level foreign-key violation (not a typed ClientNotFoundError).
The error models an exception raised before the commit, so no phone row
is created and the store is unchanged. -/
theorem add_phone_missing_client (db : DB) (cid : Nat) (num : String)
    (h : findClientById db cid = none) :
    add_phone db cid num = Except.error DBErr.fkViolation := by
  simp [add_phone, h]

/-- C3: witness for add_phone_missing_client. -/
theorem add_phone_missing_client_witness :
    add_phone initDB 1 "+7" = Except.error DBErr.fkViolation :=
  add_phone_missing_client initDB 1 "+7" (by decide)

/-! ## C4: email format validation -/

/-- C4: counterexample.  The claim states that an email failing the
format check is rejected with InvalidEmailFormatError and never stored.
The schema has no CHECK constraint and the code no validation: the
string "not an email", which contains no at-sign and so fails any
email-address format check, is accepted and stored verbatim. -/
theorem email_format_check_cex :
    add_client initDB "a" "b" "not an email" none =
      Except.ok (1, ⟨[⟨1, "a", "b", "not an email"⟩], [], 2, 1⟩) ∧
    "not an email".toList.contains '@' = false := by
  constructor
  · decide
  · decide

/-- C4 (amended): neither the schema nor add_client/change_client
performs any email-format validation: every string not colliding with an
existing email is accepted and stored verbatim by add_client, and
likewise stored by change_client, and no InvalidEmailFormatError is ever
produced. -/
theorem email_never_format_checked (db : DB) (fn ln em : String)
    (h : emailExists db em = false) :
    (∃ db2 : DB, add_client db fn ln em none = Except.ok (db.nextClientId, db2) ∧
      em ∈ db2.clients.map ClientRow.email) ∧
    (∀ cid : Nat, (db.clients.any fun c => c.id != cid && c.email == em) = false →
      change_client db cid none none (some em) none =
        Except.ok (updateField db cid (fun c => { c with email := em }))) := by
  constructor
  · refine ⟨_, add_client_none_ok db fn ln em h, ?_⟩
    simp
  · intro cid hcid
    simp [change_client, setEmail, hcid]

/-- C4: witness for email_never_format_checked. -/
theorem email_never_format_checked_witness :
    (∃ db2 : DB, add_client initDB "a" "b" "x y z" none = Except.ok (1, db2) ∧
      "x y z" ∈ db2.clients.map ClientRow.email) ∧
    (∀ cid : Nat, (initDB.clients.any fun c => c.id != cid && c.email == "x y z") = false →
      change_client initDB cid none none (some "x y z") none =
        Except.ok (updateField initDB cid (fun c => { c with email := "x y z" }))) :=
  email_never_format_checked initDB "a" "b" "x y z" (by decide)

/-! ## C5: partial-update semantics of change_client -/

/-- C5: change_client has partial-update semantics.  Updating only the
email rewrites exactly the email column of the matching row (names of
every row and the whole phone table are untouched, as the explicit
result state shows); passing no field and no phones returns the store
unchanged (phones untouched); passing the empty phone list deletes
exactly the client's phone rows — so an absent phones argument and the
empty list are distinguishable and behave differently. -/
theorem change_client_partial_update (db : DB) (cid : Nat) (em : String)
    (h : (db.clients.any fun c => c.id != cid && c.email == em) = false) :
    (∃ db2 : DB, change_client db cid none none (some em) none = Except.ok db2 ∧
      db2.phones = db.phones ∧
      db2.clients = db.clients.map (fun c => if c.id == cid then { c with email := em } else c)) ∧
    (change_client db cid none none none none = Except.ok db) ∧
    (∃ db3 : DB, change_client db cid none none none (some []) = Except.ok db3 ∧
      db3.clients = db.clients ∧
      db3.phones = db.phones.filter (fun p => p.client_id != cid)) := by
  refine ⟨⟨updateField db cid (fun c => { c with email := em }), ?_, rfl, rfl⟩, rfl,
    ⟨_, rfl, rfl, rfl⟩⟩
  simp [change_client, setEmail, updateField, h]

/-- C5: witness for change_client_partial_update. -/
theorem change_client_partial_update_witness :
    (∃ db2 : DB, change_client ⟨[⟨1, "a", "b", "a@b.com"⟩], [⟨1, 1, "+7"⟩], 2, 2⟩ 1
        none none (some "n@b.com") none = Except.ok db2 ∧
      db2.phones = [⟨1, 1, "+7"⟩] ∧
      db2.clients = List.map
        (fun c => if c.id == 1 then { c with email := "n@b.com" } else c)
        [⟨1, "a", "b", "a@b.com"⟩]) ∧
    (change_client ⟨[⟨1, "a", "b", "a@b.com"⟩], [⟨1, 1, "+7"⟩], 2, 2⟩ 1
        none none none none =
      Except.ok ⟨[⟨1, "a", "b", "a@b.com"⟩], [⟨1, 1, "+7"⟩], 2, 2⟩) ∧
    (∃ db3 : DB, change_client ⟨[⟨1, "a", "b", "a@b.com"⟩], [⟨1, 1, "+7"⟩], 2, 2⟩ 1
        none none none (some []) = Except.ok db3 ∧
      db3.clients = [⟨1, "a", "b", "a@b.com"⟩] ∧
      db3.phones = List.filter (fun p => p.client_id != 1) [⟨1, 1, "+7"⟩]) :=
  change_client_partial_update ⟨[⟨1, "a", "b", "a@b.com"⟩], [⟨1, 1, "+7"⟩], 2, 2⟩ 1
    "n@b.com" (by decide)

/-! ## C9: empty-string criteria impose no filter -/

/-- C9: a find_client text criterion equal to the empty string behaves
exactly as an absent criterion, for each of the four parameters: the
code appends a WHERE condition (and, for phone, the JOIN) only when the
argument is truthy, and the empty string is not. -/
theorem find_client_empty_string_no_filter (db : DB) (fn ln em ph : Option String) :
    (find_client db (some "") ln em ph = find_client db none ln em ph) ∧
    (find_client db fn (some "") em ph = find_client db fn none em ph) ∧
    (find_client db fn ln (some "") ph = find_client db fn ln none ph) ∧
    (find_client db fn ln em (some "") = find_client db fn ln em none) :=
  ⟨rfl, rfl, rfl, rfl⟩

/-! ## C10: delete_phone removes exactly the matching rows -/

/-- C10: delete_phone removes every phone row whose (client_id, number)
pair matches — including duplicate pairs, which the schema permits and
which are reachable (third conjunct: a client created with the phone
list containing the same number twice holds two such rows, and one
delete_phone call removes both) — and leaves every other phone row and
all client rows unchanged. -/
theorem delete_phone_exact_match_frame (db : DB) (cid : Nat) (num : String) :
    ((delete_phone db cid num).clients = db.clients) ∧
    (∀ p : PhoneRow, p ∈ (delete_phone db cid num).phones ↔
      (p ∈ db.phones ∧ ¬(p.client_id = cid ∧ p.number = num))) ∧
    (∃ db2 : DB, Reachable db2 ∧ ∃ p1 p2 : PhoneRow,
      p1 ∈ db2.phones ∧ p2 ∈ db2.phones ∧ p1 ≠ p2 ∧
      p1.client_id = p2.client_id ∧ p1.number = p2.number ∧
      (delete_phone db2 p1.client_id p1.number).phones = []) := by
  refine ⟨rfl, ?_, ?_⟩
  · intro p
    simp [delete_phone, List.mem_filter, not_and, Decidable.not_not]
    tauto
  · exact ⟨⟨[⟨1, "a", "b", "e@x"⟩], [⟨1, 1, "+7"⟩, ⟨2, 1, "+7"⟩], 2, 3⟩,
      Reachable.addClient initDB "a" "b" "e@x" (some ["+7", "+7"]) 1 _
        Reachable.init (by decide),
      ⟨1, 1, "+7"⟩, ⟨2, 1, "+7"⟩, by decide, by decide, by decide, rfl, rfl, by decide⟩

/-! ## Membership structure of find_client results -/

lemma mem_joinRows {db : DB} {fn ln em ph : Option String} {x : ClientRow}
    (hx : x ∈ joinRows db fn ln em ph) : x ∈ db.clients := by
  cases ph with
  | none => exact List.mem_of_mem_filter hx
  | some pat =>
    simp only [joinRows] at hx
    split at hx
    · exact List.mem_of_mem_filter hx
    · obtain ⟨a, ha, hxa⟩ := List.mem_flatMap.mp hx
      obtain ⟨p, hp, rfl⟩ := List.mem_map.mp hxa
      exact List.mem_of_mem_filter ha

lemma mem_find_client {db : DB} {fn ln em ph : Option String} {r : FoundClient}
    (hr : r ∈ find_client db fn ln em ph) :
    ∃ c ∈ db.clients, r =
      { id := c.id, first_name := c.first_name, last_name := c.last_name,
        email := c.email, phones := clientPhones db c.id } := by
  obtain ⟨c, hc, rfl⟩ := List.mem_map.mp hr
  exact ⟨c, mem_joinRows ((List.perm_insertionSort idLe _).mem_iff.mp hc), rfl⟩

/-! ## C7: result ordering of find_client -/

/-- C7: the sequence returned by find_client is ordered by ascending
client id (nondecreasing; the ORDER BY is determinized as a stable sort
of the generated rows), and whenever two returned records carry the same
id they are the very same record (under the primary-key property that
client ids are distinct), so the ordering is trivially stable: records
with equal keys are indistinguishable. -/
theorem find_client_sorted_by_id (db : DB) (fn ln em ph : Option String)
    (hids : (db.clients.map ClientRow.id).Nodup) :
    (find_client db fn ln em ph).Pairwise (fun a b => a.id ≤ b.id) ∧
    (∀ r1 ∈ find_client db fn ln em ph, ∀ r2 ∈ find_client db fn ln em ph,
      r1.id = r2.id → r1 = r2) := by
  constructor
  · rw [find_client, List.pairwise_map]
    exact List.sorted_insertionSort idLe _
  · intro r1 h1 r2 h2 heq
    obtain ⟨c1, hc1, rfl⟩ := mem_find_client h1
    obtain ⟨c2, hc2, rfl⟩ := mem_find_client h2
    have hc12 : c1 = c2 := List.inj_on_of_nodup_map hids hc1 hc2 heq
    rw [hc12]

/-- C7: witness for find_client_sorted_by_id. -/
theorem find_client_sorted_by_id_witness :
    ((find_client ⟨[⟨2, "c", "d", "c@d.com"⟩, ⟨1, "a", "b", "a@b.com"⟩],
        [⟨1, 1, "+7"⟩], 3, 2⟩ none none none none).Pairwise
      (fun a b => a.id ≤ b.id)) ∧
    (∀ r1 ∈ find_client ⟨[⟨2, "c", "d", "c@d.com"⟩, ⟨1, "a", "b", "a@b.com"⟩],
        [⟨1, 1, "+7"⟩], 3, 2⟩ none none none none,
      ∀ r2 ∈ find_client ⟨[⟨2, "c", "d", "c@d.com"⟩, ⟨1, "a", "b", "a@b.com"⟩],
        [⟨1, 1, "+7"⟩], 3, 2⟩ none none none none,
      r1.id = r2.id → r1 = r2) :=
  find_client_sorted_by_id ⟨[⟨2, "c", "d", "c@d.com"⟩, ⟨1, "a", "b", "a@b.com"⟩],
    [⟨1, 1, "+7"⟩], 3, 2⟩ none none none none (by decide)

/-! ## C6: grouping and multiplicity of find_client results -/

lemma countP_flatMap_eq_sum {α β : Type} (q : β → Bool) (h : α → List β) :
    ∀ l : List α, (l.flatMap h).countP q = (l.map (fun a => (h a).countP q)).sum := by
  intro l
  induction l with
  | nil => rfl
  | cons a l ih => simp [List.flatMap_cons, List.countP_append, ih]

lemma countP_map_const {α β : Type} (q : β → Bool) (b : β) (l : List α) :
    ((l.map fun _ => b).countP q) = if q b then l.length else 0 := by
  induction l with
  | nil => simp
  | cons a l ih =>
    simp only [List.map_cons, List.countP_cons, ih, List.length_cons]
    by_cases hq : q b <;> simp [hq]

lemma sum_map_zero_of_not_mem {α : Type} [DecidableEq α] {c : α} (k : Nat)
    {l : List α} (h : c ∉ l) : (l.map (fun x => if x = c then k else 0)).sum = 0 := by
  induction l with
  | nil => rfl
  | cons a l ih =>
    simp only [List.mem_cons, not_or] at h
    simp [if_neg (fun hac : a = c => h.1 hac.symm), ih h.2]

lemma sum_map_single {α : Type} [DecidableEq α] {c : α} (k : Nat) :
    ∀ {l : List α}, l.Nodup → c ∈ l →
      (l.map (fun x => if x = c then k else 0)).sum = k := by
  intro l hnd hc
  induction l with
  | nil => cases hc
  | cons a l ih =>
    rcases List.mem_cons.mp hc with hca | hcl
    · have hnotin : c ∉ l := hca ▸ (List.nodup_cons.mp hnd).1
      simp [if_pos hca.symm, sum_map_zero_of_not_mem k hnotin]
    · have hac : ¬(a = c) := fun hac =>
        (List.nodup_cons.mp hnd).1 (hac ▸ hcl)
      simp [if_neg hac, ih (List.nodup_cons.mp hnd).2 hcl]

/-- C6: counterexample.  The claim states that each matching client id
appears exactly once in the result of find_client.  On a store with one
client owning the two numbers +711 and +722, searching with the phone
criterion %7% (matching both) returns the client twice: the id sequence
of the result is [1, 1]. -/
theorem find_client_duplicate_rows_cex :
    (find_client ⟨[⟨1, "a", "b", "a@b.com"⟩], [⟨1, 1, "+711"⟩, ⟨2, 1, "+722"⟩], 2, 3⟩
      none none none (some "%7%")).map (fun r => r.id) = [1, 1] := by
  decide

/-- C6 (amended): every record returned by find_client carries the full
set of the client's phone numbers (not only the matching ones); but when
a phone criterion is given, a matching client is returned once per phone
row of theirs whose number matches the criterion (the per-phone JOIN is
not deduplicated), rather than exactly once: under the primary-key
property that client ids are distinct, the number of returned records
carrying the client's id equals the number of their matching phone rows. -/
theorem find_client_groups_full_phones (db : DB) (fn ln em : Option String)
    (pat : String) (hpat : pat.isEmpty = false)
    (hids : (db.clients.map ClientRow.id).Nodup)
    (c : ClientRow) (hc : c ∈ db.clients) (hm : clientCond fn ln em c = true) :
    (∀ ph : Option String, ∀ r ∈ find_client db fn ln em ph,
      r.phones = clientPhones db r.id) ∧
    (find_client db fn ln em (some pat)).countP (fun r => r.id == c.id) =
      (db.phones.filter fun p => p.client_id == c.id && ilike p.number pat).length := by
  constructor
  · intro ph r hr
    obtain ⟨c1, hc1, rfl⟩ := mem_find_client hr
    rfl
  · rw [find_client, List.countP_map, (List.perm_insertionSort idLe _).countP_eq]
    have hjoin : joinRows db fn ln em (some pat) =
        (db.clients.filter (clientCond fn ln em)).flatMap (fun c2 =>
          (db.phones.filter (fun p => p.client_id == c2.id && ilike p.number pat)).map
            (fun _ => c2)) := by
      simp [joinRows, hpat]
    rw [hjoin, countP_flatMap_eq_sum]
    have hstep : ∀ c2 ∈ db.clients.filter (clientCond fn ln em),
        ((db.phones.filter (fun p => p.client_id == c2.id && ilike p.number pat)).map
            (fun _ => c2)).countP ((fun r => r.id == c.id) ∘ (fun c3 =>
              ({ id := c3.id, first_name := c3.first_name, last_name := c3.last_name,
                 email := c3.email, phones := clientPhones db c3.id } : FoundClient))) =
        (fun c2 => if c2 = c then
          (db.phones.filter fun p => p.client_id == c.id && ilike p.number pat).length
          else 0) c2 := by
      intro c2 hc2
      rw [countP_map_const]
      by_cases heq : c2 = c
      · subst heq
        simp
      · have hidne : (c2.id == c.id) = false :=
          beq_eq_false_iff_ne.mpr (fun hid => heq
            (List.inj_on_of_nodup_map hids (List.mem_of_mem_filter hc2) hc hid))
        simp [Function.comp, hidne, heq]
    rw [List.map_congr_left hstep]
    exact sum_map_single _
      ((List.Nodup.of_map ClientRow.id hids).filter _)
      (List.mem_filter.mpr ⟨hc, hm⟩)

/-- C6: witness for find_client_groups_full_phones. -/
theorem find_client_groups_full_phones_witness :
    (∀ ph : Option String,
      ∀ r ∈ find_client ⟨[⟨1, "a", "b", "a@b.com"⟩],
        [⟨1, 1, "+711"⟩, ⟨2, 1, "+722"⟩], 2, 3⟩ none none none ph,
      r.phones = clientPhones ⟨[⟨1, "a", "b", "a@b.com"⟩],
        [⟨1, 1, "+711"⟩, ⟨2, 1, "+722"⟩], 2, 3⟩ r.id) ∧
    (find_client ⟨[⟨1, "a", "b", "a@b.com"⟩], [⟨1, 1, "+711"⟩, ⟨2, 1, "+722"⟩], 2, 3⟩
        none none none (some "%7%")).countP
      (fun r => r.id == (⟨1, "a", "b", "a@b.com"⟩ : ClientRow).id) =
      ((⟨[⟨1, "a", "b", "a@b.com"⟩], [⟨1, 1, "+711"⟩, ⟨2, 1, "+722"⟩], 2, 3⟩ : DB).phones.filter
        fun p => p.client_id == (⟨1, "a", "b", "a@b.com"⟩ : ClientRow).id &&
          ilike p.number "%7%").length :=
  find_client_groups_full_phones ⟨[⟨1, "a", "b", "a@b.com"⟩],
    [⟨1, 1, "+711"⟩, ⟨2, 1, "+722"⟩], 2, 3⟩ none none none "%7%" (by decide) (by decide)
    ⟨1, "a", "b", "a@b.com"⟩ (by decide) (by decide)

/-! ## C8: referential integrity and cascading delete -/

lemma phonesFK_add_phone {db db2 : DB} {cid : Nat} {num : String}
    (h : phonesFK db) (heq : add_phone db cid num = Except.ok db2) : phonesFK db2 := by
  unfold add_phone at heq
  split at heq
  case isTrue hsome =>
    cases heq
    intro p hp
    rcases List.mem_append.mp hp with hold | hnew
    · exact h p hold
    · obtain ⟨c, hfind⟩ := Option.isSome_iff_exists.mp hsome
      simp only [findClientById] at hfind
      have hcmem := List.mem_of_find?_eq_some hfind
      have hcid := List.find?_some hfind
      have hpc : p = { id := db.nextPhoneId, client_id := cid, number := num } := by
        simpa using hnew
      subst hpc
      exact ⟨c, hcmem, by simpa using hcid⟩
  case isFalse => cases heq

lemma phonesFK_foldl_add_phone {cid : Nat} :
    ∀ (ps : List String) {db db2 : DB}, phonesFK db →
      ps.foldlM (fun d p => add_phone d cid p) db = Except.ok db2 → phonesFK db2 := by
  intro ps
  induction ps with
  | nil =>
    intro db db2 h heq
    rw [List.foldlM_nil] at heq
    cases heq
    exact h
  | cons p ps ih =>
    intro db db2 h heq
    rw [List.foldlM_cons] at heq
    cases hstep : add_phone db cid p with
    | error e =>
      rw [hstep] at heq
      cases heq
    | ok d =>
      rw [hstep] at heq
      exact ih (phonesFK_add_phone h hstep) heq

lemma add_client_unfold (db : DB) (fn ln em : String) (ph : Option (List String)) :
    add_client db fn ln em ph =
      if emailExists db em then Except.error DBErr.uniqueViolation
      else match (ph.getD []).foldlM (fun d p => add_phone d db.nextClientId p)
          { db with
            clients := db.clients ++
              [{ id := db.nextClientId, first_name := fn, last_name := ln, email := em }],
            nextClientId := db.nextClientId + 1 } with
        | Except.ok db2 => Except.ok (db.nextClientId, db2)
        | Except.error e => Except.error e := rfl

lemma phonesFK_add_client {db : DB} {fn ln em : String} {ph : Option (List String)}
    {cid : Nat} {db2 : DB} (h : phonesFK db)
    (heq : add_client db fn ln em ph = Except.ok (cid, db2)) : phonesFK db2 := by
  rw [add_client_unfold] at heq
  split at heq
  · cases heq
  · have h1 : phonesFK { db with
        clients := db.clients ++
          [{ id := db.nextClientId, first_name := fn, last_name := ln, email := em }],
        nextClientId := db.nextClientId + 1 } := by
      intro p hp
      obtain ⟨c, hcmem, hcid⟩ := h p hp
      exact ⟨c, List.mem_append_left _ hcmem, hcid⟩
    cases hfold : (ph.getD []).foldlM (fun d p => add_phone d db.nextClientId p)
        { db with
          clients := db.clients ++
            [{ id := db.nextClientId, first_name := fn, last_name := ln, email := em }],
          nextClientId := db.nextClientId + 1 } with
    | error e =>
      rw [hfold] at heq
      cases heq
    | ok d =>
      rw [hfold] at heq
      cases heq
      exact phonesFK_foldl_add_phone _ h1 hfold

lemma phonesFK_updateField {db : DB} {cid : Nat} {f : ClientRow → ClientRow}
    (hid : ∀ c, (f c).id = c.id) (h : phonesFK db) : phonesFK (updateField db cid f) := by
  intro p hp
  obtain ⟨c, hcmem, hcid⟩ := h p hp
  refine ⟨if c.id == cid then f c else c, ?_, ?_⟩
  · exact List.mem_map.mpr ⟨c, hcmem, rfl⟩
  · by_cases hc : (c.id == cid) = true
    · rw [if_pos hc, hid c]
      exact hcid
    · rw [if_neg hc]
      exact hcid

lemma phonesFK_setEmail {db db2 : DB} {cid : Nat} {e : String} (h : phonesFK db)
    (heq : setEmail db cid e = Except.ok db2) : phonesFK db2 := by
  unfold setEmail at heq
  split at heq
  · cases heq
  · cases heq
    exact phonesFK_updateField (fun c => rfl) h

lemma phonesFK_filter_phones {db : DB} (q : PhoneRow → Bool) (h : phonesFK db) :
    phonesFK { db with phones := db.phones.filter q } := fun p hp =>
  h p (List.mem_of_mem_filter hp)

/-- The name-field updates of change_client applied to the store: for
first_name and then last_name, update the column when the argument is
present. -/
def updNames (db : DB) (cid : Nat) (fn ln : Option String) : DB :=
  match ln with
  | some v => updateField
      (match fn with
        | some v2 => updateField db cid (fun c => { c with first_name := v2 })
        | none => db) cid (fun c => { c with last_name := v })
  | none =>
    match fn with
    | some v2 => updateField db cid (fun c => { c with first_name := v2 })
    | none => db

lemma change_client_unfold_em_none (db : DB) (cid : Nat) (fn ln : Option String)
    (ph : Option (List String)) :
    change_client db cid fn ln none ph =
      match ph with
      | none => Except.ok (updNames db cid fn ln)
      | some ps => ps.foldlM (fun d p => add_phone d cid p)
          { updNames db cid fn ln with
            phones := (updNames db cid fn ln).phones.filter (fun p => p.client_id != cid) } := by
  cases fn <;> cases ln <;> rfl

lemma change_client_unfold_em_some (db : DB) (cid : Nat) (fn ln : Option String)
    (v : String) (ph : Option (List String)) :
    change_client db cid fn ln (some v) ph =
      match setEmail (updNames db cid fn ln) cid v with
      | Except.error e => Except.error e
      | Except.ok db3 =>
        match ph with
        | none => Except.ok db3
        | some ps => ps.foldlM (fun d p => add_phone d cid p)
            { db3 with phones := db3.phones.filter (fun p => p.client_id != cid) } := by
  cases fn <;> cases ln <;> rfl

lemma phonesFK_updNames {db : DB} {cid : Nat} (fn ln : Option String)
    (h : phonesFK db) : phonesFK (updNames db cid fn ln) := by
  cases fn <;> cases ln <;>
    simp only [updNames] <;>
    first
      | exact h
      | exact phonesFK_updateField (fun c => rfl) h
      | exact phonesFK_updateField (fun c => rfl) (phonesFK_updateField (fun c => rfl) h)

lemma phonesFK_change_client {db : DB} {cid : Nat} {fn ln em : Option String}
    {ph : Option (List String)} {db2 : DB} (h : phonesFK db)
    (heq : change_client db cid fn ln em ph = Except.ok db2) : phonesFK db2 := by
  have h1 : phonesFK (updNames db cid fn ln) := phonesFK_updNames fn ln h
  have hstep : ∀ db3 : DB, phonesFK db3 →
      (match ph with
        | none => Except.ok db3
        | some ps => ps.foldlM (fun d p => add_phone d cid p)
            { db3 with phones := db3.phones.filter (fun p => p.client_id != cid) }) =
        Except.ok db2 →
      phonesFK db2 := by
    intro db3 h3 heq3
    cases ph with
    | none =>
      cases heq3
      exact h3
    | some ps =>
      exact phonesFK_foldl_add_phone ps (phonesFK_filter_phones _ h3) heq3
  cases em with
  | none =>
    rw [change_client_unfold_em_none] at heq
    exact hstep _ h1 heq
  | some v =>
    rw [change_client_unfold_em_some] at heq
    cases hse : setEmail (updNames db cid fn ln) cid v with
    | error e =>
      rw [hse] at heq
      cases heq
    | ok db3 =>
      rw [hse] at heq
      exact hstep db3 (phonesFK_setEmail h1 hse) heq

lemma phonesFK_delete_client {db : DB} (cid : Nat) (h : phonesFK db) :
    phonesFK (delete_client db cid) := by
  intro p hp
  have hmem := List.mem_of_mem_filter hp
  have hpcid : (p.client_id != cid) = true := (List.mem_filter.mp hp).2
  obtain ⟨c, hcmem, hcid⟩ := h p hmem
  refine ⟨c, List.mem_filter.mpr ⟨hcmem, ?_⟩, hcid⟩
  rw [hcid]
  exact hpcid

/-- C8: in every store state reachable from an initialized schema
through the repository operations, every phone row references an
existing client row (no orphan phones); and delete_client removes, in
one operation, the client row and every phone row referencing it, so
that afterwards no client row with that id remains, no phone row with
that client id remains, find_client returns no record with that id for
any criteria, and referential integrity still holds. -/
theorem reachable_no_orphans_and_cascade (db : DB) (h : Reachable db) (cid : Nat) :
    phonesFK db ∧
    (∀ c ∈ (delete_client db cid).clients, c.id ≠ cid) ∧
    (∀ p ∈ (delete_client db cid).phones, p.client_id ≠ cid) ∧
    (∀ fn ln em ph : Option String,
      ∀ r ∈ find_client (delete_client db cid) fn ln em ph, r.id ≠ cid) ∧
    phonesFK (delete_client db cid) := by
  have hFK : phonesFK db := by
    induction h with
    | init => intro p hp; cases hp
    | create db2 hr ih => intro p hp; cases hp
    | addClient db2 fn ln em ph cid2 db3 hr heq ih => exact phonesFK_add_client ih heq
    | addPhone db2 cid2 num db3 hr heq ih => exact phonesFK_add_phone ih heq
    | changeClient db2 cid2 fn ln em ph db3 hr heq ih => exact phonesFK_change_client ih heq
    | deletePhone db2 cid2 num hr ih => exact phonesFK_filter_phones _ ih
    | deleteClient db2 cid2 hr ih => exact phonesFK_delete_client _ ih
  refine ⟨hFK, ?_, ?_, ?_, phonesFK_delete_client _ hFK⟩
  · intro c hcmem hceq
    have hne : (c.id != cid) = true := (List.mem_filter.mp hcmem).2
    rw [hceq] at hne
    simp at hne
  · intro p hp hpeq
    have hne : (p.client_id != cid) = true := (List.mem_filter.mp hp).2
    rw [hpeq] at hne
    simp at hne
  · intro fn ln em ph r hr
    obtain ⟨c, hcmem, rfl⟩ := mem_find_client hr
    intro hceq
    have hceq2 : c.id = cid := hceq
    have hne : (c.id != cid) = true := (List.mem_filter.mp hcmem).2
    rw [hceq2] at hne
    simp at hne

/-- C8: witness for reachable_no_orphans_and_cascade. -/
theorem reachable_no_orphans_and_cascade_witness :
    phonesFK ⟨[⟨1, "a", "b", "a@b.com"⟩], [⟨1, 1, "+7"⟩], 2, 2⟩ ∧
    (∀ c ∈ (delete_client ⟨[⟨1, "a", "b", "a@b.com"⟩], [⟨1, 1, "+7"⟩], 2, 2⟩ 1).clients,
      c.id ≠ 1) ∧
    (∀ p ∈ (delete_client ⟨[⟨1, "a", "b", "a@b.com"⟩], [⟨1, 1, "+7"⟩], 2, 2⟩ 1).phones,
      p.client_id ≠ 1) ∧
    (∀ fn ln em ph : Option String,
      ∀ r ∈ find_client (delete_client ⟨[⟨1, "a", "b", "a@b.com"⟩], [⟨1, 1, "+7"⟩], 2, 2⟩ 1)
        fn ln em ph, r.id ≠ 1) ∧
    phonesFK (delete_client ⟨[⟨1, "a", "b", "a@b.com"⟩], [⟨1, 1, "+7"⟩], 2, 2⟩ 1) :=
  reachable_no_orphans_and_cascade ⟨[⟨1, "a", "b", "a@b.com"⟩], [⟨1, 1, "+7"⟩], 2, 2⟩
    (Reachable.addClient initDB "a" "b" "a@b.com" (some ["+7"]) 1
      ⟨[⟨1, "a", "b", "a@b.com"⟩], [⟨1, 1, "+7"⟩], 2, 2⟩ Reachable.init (by decide)) 1
